import Mathlib

/-!
Shallow embedding of the cesium-allocator crate: the `Allocator` handle
(src/src/allocator.rs) and the `AllocatorPool` registry (src/src/lib.rs),
built over an explicit model of the native allocation engine (the
`cesium_libmimalloc_sys` binding surface, whose implementation is external
to the repository and is therefore modelled from the specification and the
binding documentation).

Machine integers: `u32` values are `Nat` reduced modulo 4294967296 (= 2^32)
wherever an arithmetic operation can overflow; `usize` overflow checks use
18446744073709551616 (= 2^64).  Raw pointers are modelled as `Nat`
addresses with `0` playing the role of the null failure sentinel.
-/

namespace Cesium

/-- One allocated block inside a heap: its requested size and its byte
contents (bytes are `Nat` values; the engine model fills fresh memory
either with zeros or with the engine's junk byte). -/
structure Block where
  size : Nat
  bytes : List Nat
deriving DecidableEq

/-- Modelled from the spec: a heap area (`mi_heap_area_t`) is a contiguous
region holding blocks of a single size class; `liveBlocks` lists the
addresses of the allocated blocks inside the area, which the visitation
walk enumerates. -/
structure Area where
  reserved : Nat
  used : Nat
  blockSize : Nat
  liveBlocks : List Nat
deriving DecidableEq

/-- Modelled from the spec: the engine-side state of one heap — the map
from block address to allocated block, the area list walked by
`mi_heap_visit_blocks`, and the engine-cached capacity released by
`mi_heap_collect`. -/
structure HeapState where
  blocks : List (Nat × Block)
  areas : List Area
  pending : Nat
deriving DecidableEq

def HeapState.empty : HeapState := ⟨[], [], 0⟩

def HeapState.addBlock (h : HeapState) (addr : Nat) (b : Block) : HeapState :=
  { h with blocks := (addr, b) :: h.blocks }

def HeapState.removeBlock (h : HeapState) (addr : Nat) : HeapState :=
  { h with blocks := h.blocks.filter (fun x => x.1 != addr) }

def HeapState.lookupBlock (h : HeapState) (addr : Nat) : Option Block :=
  (h.blocks.find? (fun x => x.1 == addr)).map Prod.snd

/-- Block-visitation callback (`mi_block_visit_fun`): receives the area,
the block address (`none` for the per-area visit), the block size and the
caller argument, and returns the continuation signal (`false` aborts). -/
abbrev VisitFun := Area → Option Nat → Nat → Nat → Bool

/-- Modelled from the spec: the state of the native allocation engine.
`nextHeap` mints fresh heap handles for `mi_heap_new`; `nextAddr` mints
fresh block addresses; `oom` is the out-of-memory oracle (a request of a
given total size either succeeds or fails deterministically in a given
engine state); `junk` is the value an uninitialized byte holds; `strAt`
gives the bytes of the nul-terminated C string stored at an address of
ambient memory (used by `strdup`/`strndup`/`realpath`); `heaps` maps each
heap handle to its state. -/
structure Engine where
  nextHeap : Nat
  nextAddr : Nat
  oom : Nat → Bool
  junk : Nat
  strAt : Nat → List Nat
  heaps : Nat → HeapState

/-- Replace the state of one heap, leaving every other heap untouched. -/
def Engine.setHeap (e : Engine) (h : Nat) (hs : HeapState) : Engine :=
  { e with heaps := fun k => if k = h then hs else e.heaps k }

/-- Modelled from the spec: `mi_heap_new` creates a fresh heap and returns
its (non-null) handle. -/
def mi_heap_new (e : Engine) : Nat × Engine :=
  (e.nextHeap,
   { (e.setHeap e.nextHeap HeapState.empty) with nextHeap := e.nextHeap + 1 })

/-- Modelled from the spec: allocate a block with the given byte contents
into heap `h`; returns the fresh block address, or the null sentinel `0`
(leaving the engine unchanged) when the engine is out of memory for a
request of that size. -/
def Engine.allocInto (e : Engine) (h : Nat) (bs : List Nat) : Nat × Engine :=
  if e.oom bs.length then (0, e)
  else
    (e.nextAddr,
     { (e.setHeap h ((e.heaps h).addBlock e.nextAddr ⟨bs.length, bs⟩)) with
         nextAddr := e.nextAddr + 1 })

/-- Modelled from the spec: `mi_heap_malloc` — `size` uninitialized bytes
from heap `h`, or null on out-of-memory. -/
def mi_heap_malloc (e : Engine) (h : Nat) (size : Nat) : Nat × Engine :=
  e.allocInto h (List.replicate size e.junk)

/-- Modelled from the spec: `mi_heap_zalloc` — `size` zero-initialized
bytes from heap `h`, or null on out-of-memory. -/
def mi_heap_zalloc (e : Engine) (h : Nat) (size : Nat) : Nat × Engine :=
  e.allocInto h (List.replicate size 0)

/-- Modelled from the spec: `mi_heap_calloc` — `count` zeroed items of
`size` bytes; returns null if `count * size` overflows `usize` or on
out-of-memory. -/
def mi_heap_calloc (e : Engine) (h : Nat) (count size : Nat) : Nat × Engine :=
  if 18446744073709551616 ≤ count * size then (0, e)
  else mi_heap_zalloc e h (count * size)

/-- Modelled from the spec: `mi_heap_mallocn` — like `calloc` but the
bytes are uninitialized. -/
def mi_heap_mallocn (e : Engine) (h : Nat) (count size : Nat) : Nat × Engine :=
  if 18446744073709551616 ≤ count * size then (0, e)
  else mi_heap_malloc e h (count * size)

/-- Modelled from the spec: `mi_heap_malloc_small` behaves as `malloc`
(the binding documents that it does not itself check the size). -/
def mi_heap_malloc_small (e : Engine) (h : Nat) (size : Nat) : Nat × Engine :=
  mi_heap_malloc e h size

/-- Modelled from the spec: common core of the reallocation family. A null
input pointer degrades to a fresh allocation; an unknown pointer is
treated as a fresh allocation; otherwise on success the old block is
released and a new block keeps the old contents truncated to `newsize`,
with bytes past the old size filled with `fill`; on failure null is
returned and the engine (hence the input block) is unchanged. Block
addresses are abstract, so alignment requests do not alter the model. -/
def reallocCore (e : Engine) (h : Nat) (p newsize fill : Nat) : Nat × Engine :=
  if p = 0 then e.allocInto h (List.replicate newsize fill)
  else
    match (e.heaps h).lookupBlock p with
    | none => e.allocInto h (List.replicate newsize fill)
    | some b =>
      if e.oom newsize then (0, e)
      else
        (e.nextAddr,
         { (e.setHeap h (((e.heaps h).removeBlock p).addBlock e.nextAddr
              ⟨newsize, b.bytes.take newsize ++
                 List.replicate (newsize - b.size) fill⟩)) with
             nextAddr := e.nextAddr + 1 })

/-- Modelled from the spec: `mi_heap_realloc`. -/
def mi_heap_realloc (e : Engine) (h : Nat) (p newsize : Nat) : Nat × Engine :=
  reallocCore e h p newsize e.junk

/-- Modelled from the spec: `mi_heap_reallocn` — counted reallocation with
overflow check. -/
def mi_heap_reallocn (e : Engine) (h : Nat) (p count size : Nat) : Nat × Engine :=
  if 18446744073709551616 ≤ count * size then (0, e)
  else mi_heap_realloc e h p (count * size)

/-- Modelled from the spec: `mi_heap_reallocf` — as `realloc`, but on
failure the input pointer is freed. -/
def mi_heap_reallocf (e : Engine) (h : Nat) (p newsize : Nat) : Nat × Engine :=
  let r := mi_heap_realloc e h p newsize
  if r.1 = 0 then (0, r.2.setHeap h ((r.2.heaps h).removeBlock p))
  else r

/-- Modelled from the spec: `mi_heap_rezalloc` — reallocation whose grown
tail is zero-initialized. -/
def mi_heap_rezalloc (e : Engine) (h : Nat) (p newsize : Nat) : Nat × Engine :=
  reallocCore e h p newsize 0

/-- Modelled from the spec: `mi_heap_recalloc` — counted zeroing
reallocation with overflow check. -/
def mi_heap_recalloc (e : Engine) (h : Nat) (p count size : Nat) : Nat × Engine :=
  if 18446744073709551616 ≤ count * size then (0, e)
  else mi_heap_rezalloc e h p (count * size)

/-- Modelled from the spec: `mi_heap_strdup` duplicates the nul-terminated
string at `s` into heap `h`. -/
def mi_heap_strdup (e : Engine) (h : Nat) (s : Nat) : Nat × Engine :=
  e.allocInto h (e.strAt s ++ [0])

/-- Modelled from the spec: `mi_heap_strndup` duplicates at most `n` bytes
of the string at `s` into heap `h`. -/
def mi_heap_strndup (e : Engine) (h : Nat) (s n : Nat) : Nat × Engine :=
  e.allocInto h ((e.strAt s).take n ++ [0])

/-- Modelled from the spec: `mi_heap_realpath` — when `resolved` is null
the resolved path is allocated into heap `h`; otherwise the caller buffer
is used and no heap allocation happens. -/
def mi_heap_realpath (e : Engine) (h : Nat) (fname resolved : Nat) : Nat × Engine :=
  if resolved = 0 then e.allocInto h (e.strAt fname ++ [0])
  else (resolved, e)

/-- Modelled from the spec: `mi_heap_contains_block` — does the block at
`p` live in heap `h`? Read-only. -/
def mi_heap_contains_block (e : Engine) (h : Nat) (p : Nat) : Bool :=
  ((e.heaps h).lookupBlock p).isSome

/-- Modelled from the spec: `mi_heap_check_owned` — safe membership test
of an arbitrary pointer against heap `h`. Read-only. -/
def mi_heap_check_owned (e : Engine) (h : Nat) (p : Nat) : Bool :=
  ((e.heaps h).lookupBlock p).isSome

/-- Modelled from the spec: `mi_heap_collect` releases the engine-cached
capacity of heap `h`; no other heap is affected. -/
def mi_heap_collect (e : Engine) (h : Nat) (_force : Bool) : Engine :=
  e.setHeap h { e.heaps h with pending := 0 }

/-- Modelled from the spec: `mi_free` takes no heap argument — it frees
the block at `p` out of whichever heap owns it. -/
def mi_free (e : Engine) (p : Nat) : Engine :=
  { e with heaps := fun k => (e.heaps k).removeBlock p }

/-- Sequential walk of the live blocks of one area, aborting as soon as
the visitor returns `false`. -/
def visitBlockList (f : VisitFun) (a : Area) (arg : Nat) : List Nat → Bool
  | [] => true
  | b :: rest =>
    if f a (some b) a.blockSize arg then visitBlockList f a arg rest
    else false

/-- Sequential walk of the areas of a heap: the visitor is called once per
area (with a null block), then — when `visitAll` is set — once per live
block of the area; a `false` answer aborts the whole walk. -/
def visitAreaList (f : VisitFun) (visitAll : Bool) (arg : Nat) : List Area → Bool
  | [] => true
  | a :: rest =>
    if f a none a.blockSize arg then
      if visitAll then
        if visitBlockList f a arg a.liveBlocks then
          visitAreaList f visitAll arg rest
        else false
      else visitAreaList f visitAll arg rest
    else false

/-- Modelled from the spec: `mi_heap_visit_blocks` returns whether every
area (and, with `visitAll`, every live block) was visited; it returns
`false` when the visitor aborted the walk early, and — per the design —
`false` when no visitor was supplied at all. -/
def mi_heap_visit_blocks (e : Engine) (h : Nat) (visitAll : Bool)
    (visitor : Option VisitFun) (arg : Nat) : Bool :=
  match visitor with
  | none => false
  | some f => visitAreaList f visitAll arg (e.heaps h).areas

/-- The `Allocator` of src/src/allocator.rs: an id paired with the raw
handle of the bound heap. -/
structure Allocator where
  id : Nat
  heap : Nat
deriving DecidableEq

/-- Modelled from the spec: `mi_heap_malloc_aligned` — block addresses in
this model are abstract, so the alignment request does not alter the
allocation itself. -/
def mi_heap_malloc_aligned (e : Engine) (h : Nat) (size _al : Nat) : Nat × Engine :=
  mi_heap_malloc e h size

/-- Modelled from the spec: `mi_heap_malloc_aligned_at`. -/
def mi_heap_malloc_aligned_at (e : Engine) (h : Nat) (size _al _off : Nat) :
    Nat × Engine :=
  mi_heap_malloc e h size

/-- Modelled from the spec: `mi_heap_zalloc_aligned`. -/
def mi_heap_zalloc_aligned (e : Engine) (h : Nat) (size _al : Nat) : Nat × Engine :=
  mi_heap_zalloc e h size

/-- Modelled from the spec: `mi_heap_zalloc_aligned_at`. -/
def mi_heap_zalloc_aligned_at (e : Engine) (h : Nat) (size _al _off : Nat) :
    Nat × Engine :=
  mi_heap_zalloc e h size

/-- Modelled from the spec: `mi_heap_calloc_aligned`. -/
def mi_heap_calloc_aligned (e : Engine) (h : Nat) (count size _al : Nat) :
    Nat × Engine :=
  mi_heap_calloc e h count size

/-- Modelled from the spec: `mi_heap_calloc_aligned_at`. -/
def mi_heap_calloc_aligned_at (e : Engine) (h : Nat) (count size _al _off : Nat) :
    Nat × Engine :=
  mi_heap_calloc e h count size

/-- Modelled from the spec: `mi_heap_realloc_aligned`. -/
def mi_heap_realloc_aligned (e : Engine) (h : Nat) (p newsize _al : Nat) :
    Nat × Engine :=
  mi_heap_realloc e h p newsize

/-- Modelled from the spec: `mi_heap_realloc_aligned_at`. -/
def mi_heap_realloc_aligned_at (e : Engine) (h : Nat) (p newsize _al _off : Nat) :
    Nat × Engine :=
  mi_heap_realloc e h p newsize

/-- Modelled from the spec: `mi_heap_rezalloc_aligned`. -/
def mi_heap_rezalloc_aligned (e : Engine) (h : Nat) (p newsize _al : Nat) :
    Nat × Engine :=
  mi_heap_rezalloc e h p newsize

/-- Modelled from the spec: `mi_heap_rezalloc_aligned_at`. -/
def mi_heap_rezalloc_aligned_at (e : Engine) (h : Nat) (p newsize _al _off : Nat) :
    Nat × Engine :=
  mi_heap_rezalloc e h p newsize

/-- Modelled from the spec: `mi_heap_recalloc_aligned`. -/
def mi_heap_recalloc_aligned (e : Engine) (h : Nat) (p count size _al : Nat) :
    Nat × Engine :=
  mi_heap_recalloc e h p count size

/-- Modelled from the spec: `mi_heap_recalloc_aligned_at`. -/
def mi_heap_recalloc_aligned_at (e : Engine) (h : Nat) (p count size _al _off : Nat) :
    Nat × Engine :=
  mi_heap_recalloc e h p count size

/-- The `AllocatorPool` of src/src/lib.rs: the id counter and the
`BTreeMap<u32, Arc<Allocator>>`, modelled as a partial map.  An entry
`some a` stands for the shared `Arc` holding `a`; cloning an `Arc` yields
the same underlying `Allocator`, so sharing is structural equality here. -/
structure AllocatorPool where
  lowest_id : Nat
  heaps : Nat → Option Allocator

def AllocatorPool.new : AllocatorPool :=
  { lowest_id := 0, heaps := fun _ => none }

/-- `AllocatorPool::new_allocator`: create a heap from the engine, take
`lowest_id + 1` (u32 addition, hence the reduction modulo 2^32) as the new
id, advance the counter, register the allocator and return it. -/
def AllocatorPool.new_allocator (p : AllocatorPool) (e : Engine) :
    Allocator × AllocatorPool × Engine :=
  let he := mi_heap_new e
  let id := (p.lowest_id + 1) % 4294967296
  let alloc : Allocator := ⟨id, he.1⟩
  (alloc,
   { lowest_id := id,
     heaps := fun k => if k = id then some alloc else p.heaps k },
   he.2)

/-- `AllocatorPool::get_allocator`: on a hit return the registered
allocator; on a miss return `none` when `create` is `none`, and otherwise
call `new_allocator` — the boolean inside `Some` is bound but never
examined, exactly as in the source. -/
def AllocatorPool.get_allocator (p : AllocatorPool) (e : Engine) (id : Nat)
    (create : Option Bool) : Option Allocator × AllocatorPool × Engine :=
  match p.heaps id with
  | none =>
    match create with
    | none => (none, p, e)
    | some _ =>
      let r := p.new_allocator e
      (some r.1, r.2.1, r.2.2)
  | some v => (some v, p, e)

/-! The `impl Allocator` block of src/src/allocator.rs: every method takes
the handle by shared reference and forwards to the engine primitive,
passing `self.heap` where the primitive is heap-scoped.  `free` forwards
to the heap-agnostic `mi_free` and passes no heap at all. -/

def Allocator.collect (a : Allocator) (e : Engine) (force : Bool) : Engine :=
  mi_heap_collect e a.heap force

def Allocator.malloc (a : Allocator) (e : Engine) (size : Nat) : Nat × Engine :=
  mi_heap_malloc e a.heap size

def Allocator.free (_a : Allocator) (e : Engine) (p : Nat) : Engine :=
  mi_free e p

def Allocator.zalloc (a : Allocator) (e : Engine) (size : Nat) : Nat × Engine :=
  mi_heap_zalloc e a.heap size

def Allocator.calloc (a : Allocator) (e : Engine) (count size : Nat) : Nat × Engine :=
  mi_heap_calloc e a.heap count size

def Allocator.mallocn (a : Allocator) (e : Engine) (count size : Nat) : Nat × Engine :=
  mi_heap_mallocn e a.heap count size

def Allocator.malloc_small (a : Allocator) (e : Engine) (size : Nat) : Nat × Engine :=
  mi_heap_malloc_small e a.heap size

def Allocator.realloc (a : Allocator) (e : Engine) (p newsize : Nat) : Nat × Engine :=
  mi_heap_realloc e a.heap p newsize

def Allocator.reallocn (a : Allocator) (e : Engine) (p count size : Nat) :
    Nat × Engine :=
  mi_heap_reallocn e a.heap p count size

def Allocator.reallocf (a : Allocator) (e : Engine) (p newsize : Nat) : Nat × Engine :=
  mi_heap_reallocf e a.heap p newsize

def Allocator.strdup (a : Allocator) (e : Engine) (s : Nat) : Nat × Engine :=
  mi_heap_strdup e a.heap s

def Allocator.strndup (a : Allocator) (e : Engine) (s n : Nat) : Nat × Engine :=
  mi_heap_strndup e a.heap s n

def Allocator.realpath (a : Allocator) (e : Engine) (fname resolved : Nat) :
    Nat × Engine :=
  mi_heap_realpath e a.heap fname resolved

def Allocator.malloc_aligned (a : Allocator) (e : Engine) (size al : Nat) :
    Nat × Engine :=
  mi_heap_malloc_aligned e a.heap size al

def Allocator.malloc_aligned_at (a : Allocator) (e : Engine) (size al off : Nat) :
    Nat × Engine :=
  mi_heap_malloc_aligned_at e a.heap size al off

def Allocator.zalloc_aligned (a : Allocator) (e : Engine) (size al : Nat) :
    Nat × Engine :=
  mi_heap_zalloc_aligned e a.heap size al

def Allocator.zalloc_aligned_at (a : Allocator) (e : Engine) (size al off : Nat) :
    Nat × Engine :=
  mi_heap_zalloc_aligned_at e a.heap size al off

def Allocator.calloc_aligned (a : Allocator) (e : Engine) (count size al : Nat) :
    Nat × Engine :=
  mi_heap_calloc_aligned e a.heap count size al

def Allocator.calloc_aligned_at (a : Allocator) (e : Engine)
    (count size al off : Nat) : Nat × Engine :=
  mi_heap_calloc_aligned_at e a.heap count size al off

def Allocator.realloc_aligned (a : Allocator) (e : Engine) (p newsize al : Nat) :
    Nat × Engine :=
  mi_heap_realloc_aligned e a.heap p newsize al

def Allocator.realloc_aligned_at (a : Allocator) (e : Engine)
    (p newsize al off : Nat) : Nat × Engine :=
  mi_heap_realloc_aligned_at e a.heap p newsize al off

def Allocator.rezalloc (a : Allocator) (e : Engine) (p newsize : Nat) : Nat × Engine :=
  mi_heap_rezalloc e a.heap p newsize

def Allocator.recalloc (a : Allocator) (e : Engine) (p count size : Nat) :
    Nat × Engine :=
  mi_heap_recalloc e a.heap p count size

def Allocator.rezalloc_aligned (a : Allocator) (e : Engine) (p newsize al : Nat) :
    Nat × Engine :=
  mi_heap_rezalloc_aligned e a.heap p newsize al

def Allocator.rezalloc_aligned_at (a : Allocator) (e : Engine)
    (p newsize al off : Nat) : Nat × Engine :=
  mi_heap_rezalloc_aligned_at e a.heap p newsize al off

def Allocator.recalloc_aligned (a : Allocator) (e : Engine) (p count size al : Nat) :
    Nat × Engine :=
  mi_heap_recalloc_aligned e a.heap p count size al

def Allocator.recalloc_aligned_at (a : Allocator) (e : Engine)
    (p count size al off : Nat) : Nat × Engine :=
  mi_heap_recalloc_aligned_at e a.heap p count size al off

def Allocator.contains_block (a : Allocator) (e : Engine) (p : Nat) : Bool :=
  mi_heap_contains_block e a.heap p

def Allocator.check_owned (a : Allocator) (e : Engine) (p : Nat) : Bool :=
  mi_heap_check_owned e a.heap p

def Allocator.visit_blocks (a : Allocator) (e : Engine) (visitAll : Bool)
    (visitor : Option VisitFun) (arg : Nat) : Bool :=
  mi_heap_visit_blocks e a.heap visitAll visitor arg

/-- A sample engine state for concrete evaluations: no heap exists yet,
nothing ever reports out-of-memory, and uninitialized bytes read as 0. -/
def E0 : Engine :=
  { nextHeap := 1, nextAddr := 1, oom := fun _ => false, junk := 0,
    strAt := fun _ => [], heaps := fun _ => HeapState.empty }

/-- State of a run of successive `new_allocator` calls on one pool: the
pool, the engine, and the allocators returned so far, in call order. -/
structure RunState where
  pool : AllocatorPool
  engine : Engine
  allocs : List Allocator

/-- The run of `n` successive `new_allocator` calls on a freshly
constructed pool, starting from engine `e`. -/
def newIter (e : Engine) : Nat → RunState
  | 0 => ⟨AllocatorPool.new, e, []⟩
  | n + 1 =>
    let s := newIter e n
    let r := s.pool.new_allocator s.engine
    ⟨r.2.1, r.2.2, s.allocs ++ [r.1]⟩

/-- The ids returned by the first `n` calls of the run, in call order. -/
def newIds (e : Engine) (n : Nat) : List Nat :=
  ((newIter e n).allocs).map Allocator.id

/-! Lemmas about runs of `new_allocator`. -/

theorem new_allocator_id (p : AllocatorPool) (e : Engine) :
    (p.new_allocator e).1.id = (p.lowest_id + 1) % 4294967296 := rfl

theorem new_allocator_heap (p : AllocatorPool) (e : Engine) :
    (p.new_allocator e).1.heap = e.nextHeap := rfl

theorem new_allocator_lowest (p : AllocatorPool) (e : Engine) :
    (p.new_allocator e).2.1.lowest_id = (p.lowest_id + 1) % 4294967296 := rfl

theorem new_allocator_heaps (p : AllocatorPool) (e : Engine) (k : Nat) :
    (p.new_allocator e).2.1.heaps k =
      if k = (p.lowest_id + 1) % 4294967296 then some (p.new_allocator e).1
      else p.heaps k := rfl

theorem new_allocator_nextHeap (p : AllocatorPool) (e : Engine) :
    (p.new_allocator e).2.2.nextHeap = e.nextHeap + 1 := rfl

theorem newIter_succ (e : Engine) (n : Nat) :
    newIter e (n + 1) =
      ⟨((newIter e n).pool.new_allocator (newIter e n).engine).2.1,
       ((newIter e n).pool.new_allocator (newIter e n).engine).2.2,
       (newIter e n).allocs ++
         [((newIter e n).pool.new_allocator (newIter e n).engine).1]⟩ := rfl

theorem newIter_lowest (e : Engine) (n : Nat) :
    (newIter e n).pool.lowest_id = n % 4294967296 := by
  induction n with
  | zero => rfl
  | succ n ih =>
    rw [newIter_succ]
    show ((newIter e n).pool.lowest_id + 1) % 4294967296 = _
    rw [ih]
    omega

theorem newIds_succ (e : Engine) (n : Nat) :
    newIds e (n + 1) = newIds e n ++ [((n % 4294967296) + 1) % 4294967296] := by
  show ((newIter e (n + 1)).allocs).map Allocator.id = _
  rw [newIter_succ]
  show ((newIter e n).allocs ++ _).map Allocator.id = _
  rw [List.map_append]
  show newIds e n ++ [((newIter e n).pool.lowest_id + 1) % 4294967296] = _
  rw [newIter_lowest]

/-- Before the counter wraps, the ids of a fresh run are exactly
`[1, 2, …, k]`. -/
theorem newIds_small (e : Engine) (k : Nat) (hk : k < 4294967296) :
    newIds e k = List.range' 1 k := by
  induction k with
  | zero => rfl
  | succ n ih =>
    rw [newIds_succ, ih (by omega), List.range'_concat]
    congr 1
    have h1 : n % 4294967296 = n := Nat.mod_eq_of_lt (by omega)
    have h2 : (n + 1) % 4294967296 = n + 1 := Nat.mod_eq_of_lt hk
    rw [h1, h2]
    congr 1
    omega

/-- Claim C1 (amended with the u32 bound `k < 2^32`, which the wrap-around
counterexample forces): on a freshly constructed pool, the ids returned by
`k` successive `new_allocator` calls are exactly `[1, 2, …, k]` with no
repeats, and each call returns an allocator whose id is the pre-call
`lowest_id + 1`, sets `lowest_id` to that id, registers the returned
allocator in the map under that id, binds a freshly created engine heap
and advances the engine's heap counter. -/
theorem C1_new_allocator_ids (e : Engine) (k : Nat) (hpos : 1 ≤ k)
    (hk : k < 4294967296) :
    newIds e k = List.range' 1 k ∧ (newIds e k).Nodup ∧
    (∀ n, n < k →
      ((newIter e n).pool.new_allocator (newIter e n).engine).1.id
          = (newIter e n).pool.lowest_id + 1 ∧
      (newIter e (n + 1)).pool.lowest_id
          = ((newIter e n).pool.new_allocator (newIter e n).engine).1.id ∧
      (newIter e (n + 1)).pool.heaps
          ((newIter e n).pool.new_allocator (newIter e n).engine).1.id
          = some ((newIter e n).pool.new_allocator (newIter e n).engine).1 ∧
      ((newIter e n).pool.new_allocator (newIter e n).engine).1.heap
          = (newIter e n).engine.nextHeap ∧
      (newIter e (n + 1)).engine.nextHeap
          = (newIter e n).engine.nextHeap + 1) := by
  refine ⟨newIds_small e k hk, ?_, ?_⟩
  · rw [newIds_small e k hk]
    exact List.nodup_range' 1 k
  · intro n hn
    have hlow : (newIter e n).pool.lowest_id = n := by
      rw [newIter_lowest]; omega
    have hid : ((newIter e n).pool.new_allocator (newIter e n).engine).1.id
        = (newIter e n).pool.lowest_id + 1 := by
      rw [new_allocator_id, hlow]
      omega
    refine ⟨hid, ?_, ?_, new_allocator_heap _ _, ?_⟩
    · rw [newIter_succ, new_allocator_lowest, new_allocator_id]
    · rw [newIter_succ, new_allocator_heaps, new_allocator_id, if_pos rfl]
    · rw [newIter_succ, new_allocator_nextHeap]

/-- Closed instance of Claim C1 at `k = 3`: the first three calls return
ids `[1, 2, 3]` with no repeats. -/
theorem C1_new_allocator_ids_witness :
    newIds E0 3 = List.range' 1 3 ∧ (newIds E0 3).Nodup :=
  ⟨(C1_new_allocator_ids E0 3 (by decide) (by decide)).1,
   (C1_new_allocator_ids E0 3 (by decide) (by decide)).2.1⟩

/-- Claim C1 counterexample: after 4294967295 = 2^32 − 1 successive calls
on a fresh pool, `lowest_id` is 4294967295, yet the next (2^32-th) call
returns the allocator id 0 — the u32 counter wraps — rather than
`lowest_id + 1 = 2^32`, so the ids of `k = 2^32` successive calls are not
`1, …, k` and the claim fails at that `k`. -/
theorem C1_counterexample :
    (newIter E0 4294967295).pool.lowest_id = 4294967295 ∧
    ((newIter E0 4294967295).pool.new_allocator
        (newIter E0 4294967295).engine).1.id = 0 ∧
    (0 : Nat) ≠ 4294967295 + 1 := by
  have h : (newIter E0 4294967295).pool.lowest_id = 4294967295 := by
    rw [newIter_lowest]
  refine ⟨h, ?_, by omega⟩
  rw [new_allocator_id, h]

/-- Claim C2 (amended to the `create = None` case only, which the
`Some(false)` counterexample forces): when `id` is absent from the map and
`create` is `None`, `get_allocator` returns the not-found result and
leaves the pool — both `lowest_id` and the map — and the engine
unchanged. -/
theorem C2_lookup_miss_none (p : AllocatorPool) (e : Engine) (id : Nat)
    (h : p.heaps id = none) :
    p.get_allocator e id none = (none, p, e) := by
  simp [AllocatorPool.get_allocator, h]

/-- Closed instance of Claim C2: looking up id 7 in a fresh pool without
requesting creation returns not-found and changes nothing. -/
theorem C2_lookup_miss_none_witness :
    AllocatorPool.new.get_allocator E0 7 none = (none, AllocatorPool.new, E0) :=
  C2_lookup_miss_none AllocatorPool.new E0 7 rfl

/-- Claim C2 counterexample: `get_allocator(7, Some(false))` on a fresh
pool — where id 7 is absent — does NOT return the not-found result, and it
does create and register a fresh allocator (under id 1): the boolean
inside `Some` is never examined by the code, so `Some(false)` does not
decline creation as the claim states. -/
theorem C2_counterexample :
    AllocatorPool.new.heaps 7 = none ∧
    (AllocatorPool.new.get_allocator E0 7 (some false)).1 ≠ none ∧
    (AllocatorPool.new.get_allocator E0 7 (some false)).2.1.heaps 1 ≠ none := by
  refine ⟨rfl, ?_, ?_⟩ <;> decide

/-- Claim C3: when `id` is registered, `get_allocator` returns exactly the
allocator stored in the map (the shared `Arc`, hence the identical heap
handle) and leaves pool and engine unchanged; two consecutive
`get_allocator(id, None)` calls return that same allocator; and after
`new_allocator` returns an allocator, `get_allocator` at its id returns
that very allocator. -/
theorem C3_lookup_hit :
    (∀ (p : AllocatorPool) (e : Engine) (id : Nat) (c : Option Bool)
        (a : Allocator), p.heaps id = some a →
        p.get_allocator e id c = (some a, p, e)) ∧
    (∀ (p : AllocatorPool) (e : Engine) (id : Nat) (a : Allocator),
        p.heaps id = some a →
        (p.get_allocator e id none).1 = some a ∧
        (((p.get_allocator e id none).2.1).get_allocator
            ((p.get_allocator e id none).2.2) id none).1 = some a) ∧
    (∀ (p : AllocatorPool) (e : Engine),
        ((p.new_allocator e).2.1.get_allocator (p.new_allocator e).2.2
            (p.new_allocator e).1.id none).1 = some (p.new_allocator e).1) := by
  have hit : ∀ (p : AllocatorPool) (e : Engine) (id : Nat) (c : Option Bool)
      (a : Allocator), p.heaps id = some a →
      p.get_allocator e id c = (some a, p, e) := by
    intro p e id c a h
    simp [AllocatorPool.get_allocator, h]
  refine ⟨hit, ?_, ?_⟩
  · intro p e id a h
    rw [hit p e id none a h]
    exact ⟨rfl, by rw [hit p e id none a h]⟩
  · intro p e
    have h : (p.new_allocator e).2.1.heaps (p.new_allocator e).1.id =
        some (p.new_allocator e).1 := by
      rw [new_allocator_heaps, new_allocator_id, if_pos rfl]
    rw [hit _ _ _ none _ h]

/-- Closed instance of Claim C3: after one `new_allocator` call on a fresh
pool, looking up id 1 returns the allocator registered under id 1 and
leaves the pool and engine as they were. -/
theorem C3_lookup_hit_witness :
    (AllocatorPool.new.new_allocator E0).2.1.get_allocator
        (AllocatorPool.new.new_allocator E0).2.2 1 none =
      (some (Allocator.mk 1 1), (AllocatorPool.new.new_allocator E0).2.1,
       (AllocatorPool.new.new_allocator E0).2.2) :=
  C3_lookup_hit.1 _ _ 1 none ⟨1, 1⟩ (by decide)

/-- Claim C4 (amended: the returned id is the pre-call `lowest_id + 1`
provided the u32 counter does not wrap, and the originally requested id
remains absent only when it differs from that freshly minted id — the
counterexample below shows the requested id can coincide with the minted
one and is then present): on a miss with creation requested, the call
routes through `new_allocator` and returns its allocator, which is
registered under the freshly minted id. -/
theorem C4_create_on_miss (p : AllocatorPool) (e : Engine) (id : Nat) (b : Bool)
    (hmiss : p.heaps id = none) (hlt : p.lowest_id + 1 < 4294967296) :
    (p.get_allocator e id (some b)).1 = some (p.new_allocator e).1 ∧
    (p.get_allocator e id (some b)).2.1 = (p.new_allocator e).2.1 ∧
    (p.get_allocator e id (some b)).2.2 = (p.new_allocator e).2.2 ∧
    (p.new_allocator e).1.id = p.lowest_id + 1 ∧
    (p.get_allocator e id (some b)).2.1.heaps (p.lowest_id + 1) =
      some (p.new_allocator e).1 ∧
    (id ≠ p.lowest_id + 1 →
      (p.get_allocator e id (some b)).2.1.heaps id = none) := by
  have hroute1 : (p.get_allocator e id (some b)).1 = some (p.new_allocator e).1 := by
    simp [AllocatorPool.get_allocator, hmiss]
  have hroute2 : (p.get_allocator e id (some b)).2.1 = (p.new_allocator e).2.1 := by
    simp [AllocatorPool.get_allocator, hmiss]
  have hroute3 : (p.get_allocator e id (some b)).2.2 = (p.new_allocator e).2.2 := by
    simp [AllocatorPool.get_allocator, hmiss]
  have hmod : (p.lowest_id + 1) % 4294967296 = p.lowest_id + 1 :=
    Nat.mod_eq_of_lt hlt
  have hid : (p.new_allocator e).1.id = p.lowest_id + 1 := by
    rw [new_allocator_id, hmod]
  refine ⟨hroute1, hroute2, hroute3, hid, ?_, ?_⟩
  · rw [hroute2, new_allocator_heaps, hmod, if_pos rfl]
  · intro hne
    rw [hroute2, new_allocator_heaps, hmod, if_neg hne, hmiss]

/-- Closed instance of Claim C4: creating through a missed lookup of id 7
on a fresh pool returns the allocator minted by `new_allocator` (id 1),
registers it under id 1, and id 7 stays absent. -/
theorem C4_create_on_miss_witness :
    (AllocatorPool.new.get_allocator E0 7 (some true)).1 =
      some (AllocatorPool.new.new_allocator E0).1 ∧
    (AllocatorPool.new.get_allocator E0 7 (some true)).2.1.heaps 7 = none :=
  ⟨(C4_create_on_miss AllocatorPool.new E0 7 true rfl (by decide)).1,
   (C4_create_on_miss AllocatorPool.new E0 7 true rfl
      (by decide)).2.2.2.2.2 (by decide)⟩

/-- Claim C4 counterexample: request id 1 with creation on a fresh pool.
Id 1 is absent before the call, yet after the call the map DOES contain
the requested id 1 (bound to the freshly minted allocator, whose minted id
happens to equal the requested one) — contradicting the claim that the
originally requested id always remains absent from the map. -/
theorem C4_counterexample :
    AllocatorPool.new.heaps 1 = none ∧
    (AllocatorPool.new.get_allocator E0 1 (some true)).2.1.heaps 1 =
      some (Allocator.mk 1 1) := by
  refine ⟨rfl, ?_⟩
  decide

/-- Claim C6: the boolean inside `Some` is never examined by
`get_allocator` — for both hit and miss, `Some true` and `Some false`
produce the same returned value and the same post-state; in particular
`Some false` creates on a miss exactly as `Some true` does. -/
theorem C6_create_flag_ignored (p : AllocatorPool) (e : Engine) (id : Nat)
    (b1 b2 : Bool) :
    p.get_allocator e id (some b1) = p.get_allocator e id (some b2) := by
  cases h : p.heaps id <;> simp [AllocatorPool.get_allocator, h]

/-- Reachability of a pool/engine configuration in exactly `n` pool
operations (`new_allocator` or `get_allocator` calls, with arbitrary
arguments) from a freshly constructed pool and an arbitrary starting
engine. -/
inductive ReachN : Nat → AllocatorPool → Engine → Prop where
  | init (e : Engine) : ReachN 0 AllocatorPool.new e
  | stepNew {n : Nat} {p : AllocatorPool} {e : Engine} :
      ReachN n p e →
      ReachN (n + 1) (p.new_allocator e).2.1 (p.new_allocator e).2.2
  | stepGet {n : Nat} {p : AllocatorPool} {e : Engine} (id : Nat)
      (c : Option Bool) : ReachN n p e →
      ReachN (n + 1) (p.get_allocator e id c).2.1 (p.get_allocator e id c).2.2

/-- The key-set invariant of the pool map: an id is registered exactly
when it lies in `{1, …, lowest_id}`. -/
def PoolInv (p : AllocatorPool) : Prop :=
  ∀ k, (p.heaps k).isSome ↔ (1 ≤ k ∧ k ≤ p.lowest_id)

theorem poolInv_new : PoolInv AllocatorPool.new := by
  intro k
  show (none : Option Allocator).isSome ↔ _
  simp [AllocatorPool.new]
  omega

theorem poolInv_step_new {p : AllocatorPool} (e : Engine)
    (hlt : p.lowest_id + 1 < 4294967296) (hp : PoolInv p) :
    PoolInv (p.new_allocator e).2.1 := by
  have hmod : (p.lowest_id + 1) % 4294967296 = p.lowest_id + 1 :=
    Nat.mod_eq_of_lt hlt
  intro k
  rw [new_allocator_heaps, new_allocator_lowest, hmod]
  by_cases hk : k = p.lowest_id + 1
  · rw [if_pos hk]
    simp
    omega
  · rw [if_neg hk, hp k]
    omega

theorem reach_inv : ∀ {n : Nat} {p : AllocatorPool} {e : Engine},
    ReachN n p e → n < 4294967296 → PoolInv p ∧ p.lowest_id ≤ n := by
  intro n p e h
  induction h with
  | init e =>
    intro _
    exact ⟨poolInv_new, Nat.le_refl 0⟩
  | @stepNew n p e _hr ih =>
    intro hn
    obtain ⟨hp, hle⟩ := ih (by omega)
    refine ⟨poolInv_step_new e (by omega) hp, ?_⟩
    rw [new_allocator_lowest]
    omega
  | @stepGet n p e id c _hr ih =>
    intro hn
    obtain ⟨hp, hle⟩ := ih (by omega)
    cases hc : p.heaps id with
    | some v =>
      have : (p.get_allocator e id c).2.1 = p := by
        simp [AllocatorPool.get_allocator, hc]
      rw [this]
      exact ⟨hp, by omega⟩
    | none =>
      cases c with
      | none =>
        have : (p.get_allocator e id none).2.1 = p := by
          simp [AllocatorPool.get_allocator, hc]
        rw [this]
        exact ⟨hp, by omega⟩
      | some b =>
        have : (p.get_allocator e id (some b)).2.1 = (p.new_allocator e).2.1 := by
          simp [AllocatorPool.get_allocator, hc]
        rw [this]
        refine ⟨poolInv_step_new e (by omega) hp, ?_⟩
        rw [new_allocator_lowest]
        omega

/-- Claim C5 (amended with the operation bound `n < 2^32`, which the u32
wrap-around counterexample forces): in every pool state reachable by
fewer than 2^32 operations, the key set of the map is exactly
`{1, …, lowest_id}`, key 0 is absent, and no single further operation
removes a map entry or rebinds an already-registered id to a different
allocator. -/
theorem C5_pool_invariant {n : Nat} {p : AllocatorPool} {e : Engine}
    (h : ReachN n p e) (hn : n < 4294967296) :
    (∀ k, (p.heaps k).isSome ↔ (1 ≤ k ∧ k ≤ p.lowest_id)) ∧
    p.heaps 0 = none ∧
    (∀ (e2 : Engine) (k : Nat) (a : Allocator), p.heaps k = some a →
      (p.new_allocator e2).2.1.heaps k = some a) ∧
    (∀ (e2 : Engine) (id : Nat) (c : Option Bool) (k : Nat) (a : Allocator),
      p.heaps k = some a → (p.get_allocator e2 id c).2.1.heaps k = some a) := by
  obtain ⟨hp, hle⟩ := reach_inv h hn
  have hzero : p.heaps 0 = none := by
    cases hc : p.heaps 0 with
    | none => rfl
    | some a =>
      have := (hp 0).mp (by rw [hc]; rfl)
      omega
  have hkeep : ∀ (e2 : Engine) (k : Nat) (a : Allocator), p.heaps k = some a →
      (p.new_allocator e2).2.1.heaps k = some a := by
    intro e2 k a hk
    have hbound := (hp k).mp (by rw [hk]; rfl)
    have hne : k ≠ (p.lowest_id + 1) % 4294967296 := by omega
    rw [new_allocator_heaps, if_neg hne]
    exact hk
  refine ⟨hp, hzero, hkeep, ?_⟩
  intro e2 id c k a hk
  cases hc : p.heaps id with
  | some v =>
    have hsame : (p.get_allocator e2 id c).2.1 = p := by
      simp [AllocatorPool.get_allocator, hc]
    rw [hsame]
    exact hk
  | none =>
    cases c with
    | none =>
      have hsame : (p.get_allocator e2 id none).2.1 = p := by
        simp [AllocatorPool.get_allocator, hc]
      rw [hsame]
      exact hk
    | some b =>
      have hroute : (p.get_allocator e2 id (some b)).2.1 =
          (p.new_allocator e2).2.1 := by
        simp [AllocatorPool.get_allocator, hc]
      rw [hroute]
      exact hkeep e2 k a hk

/-- Closed instance of Claim C5: after one operation on a fresh pool the
reserved key 0 is absent from the map. -/
theorem C5_pool_invariant_witness :
    (AllocatorPool.new.new_allocator E0).2.1.heaps 0 = none :=
  (C5_pool_invariant (ReachN.stepNew (ReachN.init E0)) (by decide)).2.1

theorem reach_newIter (e : Engine) (n : Nat) :
    ReachN n (newIter e n).pool (newIter e n).engine := by
  induction n with
  | zero => exact ReachN.init e
  | succ n ih => exact ReachN.stepNew ih

/-- Claim C5 counterexample: the state reached by 2^32 successive
`new_allocator` calls on a fresh pool is reachable, yet its map DOES
contain the reserved key 0 — the u32 counter wraps from 4294967295 to 0
and the 2^32-th call registers its allocator under id 0 — contradicting
the claim that key 0 is never present in any reachable state. -/
theorem C5_counterexample :
    ReachN 4294967296 (newIter E0 4294967296).pool
      (newIter E0 4294967296).engine ∧
    ((newIter E0 4294967296).pool.heaps 0).isSome = true := by
  refine ⟨reach_newIter E0 4294967296, ?_⟩
  have h : (newIter E0 4294967295).pool.lowest_id = 4294967295 := by
    rw [newIter_lowest]
  have hs : (4294967296 : Nat) = 4294967295 + 1 := by norm_num
  rw [hs, newIter_succ]
  show (((newIter E0 4294967295).pool.new_allocator
      (newIter E0 4294967295).engine).2.1.heaps 0).isSome = true
  rw [new_allocator_heaps, h]
  rw [if_pos (by norm_num)]
  rfl

/-! Frame reasoning for the engine: which heaps an operation can touch. -/

/-- Engine state `e2` agrees with `e` everywhere outside heap `h`: the
heap-handle counter is unchanged and every other heap has the identical
state. -/
def Engine.agreesOutside (e e2 : Engine) (h : Nat) : Prop :=
  e2.nextHeap = e.nextHeap ∧ ∀ k, k ≠ h → e2.heaps k = e.heaps k

theorem agreesOutside_refl (e : Engine) (h : Nat) : e.agreesOutside e h :=
  ⟨rfl, fun _ _ => rfl⟩

theorem agreesOutside_trans {e1 e2 e3 : Engine} {h : Nat}
    (a : e1.agreesOutside e2 h) (b : e2.agreesOutside e3 h) :
    e1.agreesOutside e3 h :=
  ⟨b.1.trans a.1, fun k hk => (b.2 k hk).trans (a.2 k hk)⟩

theorem setHeap_agrees (e : Engine) (h : Nat) (hs : HeapState) :
    e.agreesOutside (e.setHeap h hs) h :=
  ⟨rfl, fun _ hk => if_neg hk⟩

theorem allocInto_agrees (e : Engine) (h : Nat) (bs : List Nat) :
    e.agreesOutside (e.allocInto h bs).2 h := by
  unfold Engine.allocInto
  split
  · exact agreesOutside_refl e h
  · exact ⟨rfl, fun _ hk => if_neg hk⟩

theorem malloc_agrees (e : Engine) (h size : Nat) :
    e.agreesOutside (mi_heap_malloc e h size).2 h :=
  allocInto_agrees e h _

theorem zalloc_agrees (e : Engine) (h size : Nat) :
    e.agreesOutside (mi_heap_zalloc e h size).2 h :=
  allocInto_agrees e h _

theorem calloc_agrees (e : Engine) (h count size : Nat) :
    e.agreesOutside (mi_heap_calloc e h count size).2 h := by
  unfold mi_heap_calloc
  split
  · exact agreesOutside_refl e h
  · exact zalloc_agrees e h _

theorem mallocn_agrees (e : Engine) (h count size : Nat) :
    e.agreesOutside (mi_heap_mallocn e h count size).2 h := by
  unfold mi_heap_mallocn
  split
  · exact agreesOutside_refl e h
  · exact malloc_agrees e h _

theorem reallocCore_agrees (e : Engine) (h p newsize fill : Nat) :
    e.agreesOutside (reallocCore e h p newsize fill).2 h := by
  unfold reallocCore
  split
  · exact allocInto_agrees e h _
  · split
    · exact allocInto_agrees e h _
    · split
      · exact agreesOutside_refl e h
      · exact ⟨rfl, fun _ hk => if_neg hk⟩

theorem realloc_agrees (e : Engine) (h p newsize : Nat) :
    e.agreesOutside (mi_heap_realloc e h p newsize).2 h :=
  reallocCore_agrees e h p newsize e.junk

theorem reallocn_agrees (e : Engine) (h p count size : Nat) :
    e.agreesOutside (mi_heap_reallocn e h p count size).2 h := by
  unfold mi_heap_reallocn
  split
  · exact agreesOutside_refl e h
  · exact realloc_agrees e h p _

theorem reallocf_agrees (e : Engine) (h p newsize : Nat) :
    e.agreesOutside (mi_heap_reallocf e h p newsize).2 h := by
  simp only [mi_heap_reallocf]
  split
  · exact agreesOutside_trans (realloc_agrees e h p newsize)
      (setHeap_agrees (mi_heap_realloc e h p newsize).2 h _)
  · exact realloc_agrees e h p newsize

theorem rezalloc_agrees (e : Engine) (h p newsize : Nat) :
    e.agreesOutside (mi_heap_rezalloc e h p newsize).2 h :=
  reallocCore_agrees e h p newsize 0

theorem recalloc_agrees (e : Engine) (h p count size : Nat) :
    e.agreesOutside (mi_heap_recalloc e h p count size).2 h := by
  unfold mi_heap_recalloc
  split
  · exact agreesOutside_refl e h
  · exact rezalloc_agrees e h p _

theorem strdup_agrees (e : Engine) (h s : Nat) :
    e.agreesOutside (mi_heap_strdup e h s).2 h :=
  allocInto_agrees e h _

theorem strndup_agrees (e : Engine) (h s n : Nat) :
    e.agreesOutside (mi_heap_strndup e h s n).2 h :=
  allocInto_agrees e h _

theorem realpath_agrees (e : Engine) (h f r : Nat) :
    e.agreesOutside (mi_heap_realpath e h f r).2 h := by
  unfold mi_heap_realpath
  split
  · exact allocInto_agrees e h _
  · exact agreesOutside_refl e h

theorem collect_agrees (e : Engine) (h : Nat) (force : Bool) :
    e.agreesOutside (mi_heap_collect e h force) h :=
  setHeap_agrees e h _

/-- Claim C7 (amended: every heap-taking operation is scoped to the bound
heap, but `free` forwards to the engine's heap-agnostic `mi_free` and is
not — the counterexample shows it mutating a heap other than the bound
one): each allocation, reallocation and collection method of `Allocator`
leaves every engine heap other than the bound one unchanged and never
creates or destroys a heap; the handle is taken by shared reference, so
its `id` and `heap` fields are immutable and no method receives or
touches any `AllocatorPool` state (none appears in their inputs or
outputs), and the read-only introspection methods — and the heap-agnostic
`free` — do not depend on the handle's id field at all. -/
theorem C7_operations_frame :
    (∀ (a : Allocator) (e : Engine) (size : Nat),
        e.agreesOutside (a.malloc e size).2 a.heap) ∧
    (∀ (a : Allocator) (e : Engine) (size : Nat),
        e.agreesOutside (a.zalloc e size).2 a.heap) ∧
    (∀ (a : Allocator) (e : Engine) (count size : Nat),
        e.agreesOutside (a.calloc e count size).2 a.heap) ∧
    (∀ (a : Allocator) (e : Engine) (count size : Nat),
        e.agreesOutside (a.mallocn e count size).2 a.heap) ∧
    (∀ (a : Allocator) (e : Engine) (size : Nat),
        e.agreesOutside (a.malloc_small e size).2 a.heap) ∧
    (∀ (a : Allocator) (e : Engine) (p newsize : Nat),
        e.agreesOutside (a.realloc e p newsize).2 a.heap) ∧
    (∀ (a : Allocator) (e : Engine) (p count size : Nat),
        e.agreesOutside (a.reallocn e p count size).2 a.heap) ∧
    (∀ (a : Allocator) (e : Engine) (p newsize : Nat),
        e.agreesOutside (a.reallocf e p newsize).2 a.heap) ∧
    (∀ (a : Allocator) (e : Engine) (p newsize : Nat),
        e.agreesOutside (a.rezalloc e p newsize).2 a.heap) ∧
    (∀ (a : Allocator) (e : Engine) (p count size : Nat),
        e.agreesOutside (a.recalloc e p count size).2 a.heap) ∧
    (∀ (a : Allocator) (e : Engine) (size al : Nat),
        e.agreesOutside (a.malloc_aligned e size al).2 a.heap) ∧
    (∀ (a : Allocator) (e : Engine) (size al off : Nat),
        e.agreesOutside (a.malloc_aligned_at e size al off).2 a.heap) ∧
    (∀ (a : Allocator) (e : Engine) (size al : Nat),
        e.agreesOutside (a.zalloc_aligned e size al).2 a.heap) ∧
    (∀ (a : Allocator) (e : Engine) (size al off : Nat),
        e.agreesOutside (a.zalloc_aligned_at e size al off).2 a.heap) ∧
    (∀ (a : Allocator) (e : Engine) (count size al : Nat),
        e.agreesOutside (a.calloc_aligned e count size al).2 a.heap) ∧
    (∀ (a : Allocator) (e : Engine) (count size al off : Nat),
        e.agreesOutside (a.calloc_aligned_at e count size al off).2 a.heap) ∧
    (∀ (a : Allocator) (e : Engine) (p newsize al : Nat),
        e.agreesOutside (a.realloc_aligned e p newsize al).2 a.heap) ∧
    (∀ (a : Allocator) (e : Engine) (p newsize al off : Nat),
        e.agreesOutside (a.realloc_aligned_at e p newsize al off).2 a.heap) ∧
    (∀ (a : Allocator) (e : Engine) (p newsize al : Nat),
        e.agreesOutside (a.rezalloc_aligned e p newsize al).2 a.heap) ∧
    (∀ (a : Allocator) (e : Engine) (p newsize al off : Nat),
        e.agreesOutside (a.rezalloc_aligned_at e p newsize al off).2 a.heap) ∧
    (∀ (a : Allocator) (e : Engine) (p count size al : Nat),
        e.agreesOutside (a.recalloc_aligned e p count size al).2 a.heap) ∧
    (∀ (a : Allocator) (e : Engine) (p count size al off : Nat),
        e.agreesOutside (a.recalloc_aligned_at e p count size al off).2 a.heap) ∧
    (∀ (a : Allocator) (e : Engine) (s : Nat),
        e.agreesOutside (a.strdup e s).2 a.heap) ∧
    (∀ (a : Allocator) (e : Engine) (s n : Nat),
        e.agreesOutside (a.strndup e s n).2 a.heap) ∧
    (∀ (a : Allocator) (e : Engine) (f r : Nat),
        e.agreesOutside (a.realpath e f r).2 a.heap) ∧
    (∀ (a : Allocator) (e : Engine) (force : Bool),
        e.agreesOutside (a.collect e force) a.heap) ∧
    (∀ (i i2 hp : Nat) (e : Engine) (p : Nat),
        (Allocator.mk i hp).contains_block e p =
          (Allocator.mk i2 hp).contains_block e p) ∧
    (∀ (i i2 hp : Nat) (e : Engine) (p : Nat),
        (Allocator.mk i hp).check_owned e p =
          (Allocator.mk i2 hp).check_owned e p) ∧
    (∀ (i i2 hp : Nat) (e : Engine) (va : Bool) (v : Option VisitFun) (arg : Nat),
        (Allocator.mk i hp).visit_blocks e va v arg =
          (Allocator.mk i2 hp).visit_blocks e va v arg) ∧
    (∀ (a a2 : Allocator) (e : Engine) (p : Nat), a.free e p = a2.free e p) :=
  ⟨fun a e x => malloc_agrees e a.heap x,
   fun a e x => zalloc_agrees e a.heap x,
   fun a e c s => calloc_agrees e a.heap c s,
   fun a e c s => mallocn_agrees e a.heap c s,
   fun a e x => malloc_agrees e a.heap x,
   fun a e p x => realloc_agrees e a.heap p x,
   fun a e p c s => reallocn_agrees e a.heap p c s,
   fun a e p x => reallocf_agrees e a.heap p x,
   fun a e p x => rezalloc_agrees e a.heap p x,
   fun a e p c s => recalloc_agrees e a.heap p c s,
   fun a e x _ => malloc_agrees e a.heap x,
   fun a e x _ _ => malloc_agrees e a.heap x,
   fun a e x _ => zalloc_agrees e a.heap x,
   fun a e x _ _ => zalloc_agrees e a.heap x,
   fun a e c s _ => calloc_agrees e a.heap c s,
   fun a e c s _ _ => calloc_agrees e a.heap c s,
   fun a e p x _ => realloc_agrees e a.heap p x,
   fun a e p x _ _ => realloc_agrees e a.heap p x,
   fun a e p x _ => rezalloc_agrees e a.heap p x,
   fun a e p x _ _ => rezalloc_agrees e a.heap p x,
   fun a e p c s _ => recalloc_agrees e a.heap p c s,
   fun a e p c s _ _ => recalloc_agrees e a.heap p c s,
   fun a e s => strdup_agrees e a.heap s,
   fun a e s n => strndup_agrees e a.heap s n,
   fun a e f r => realpath_agrees e a.heap f r,
   fun a e force => collect_agrees e a.heap force,
   fun _ _ _ _ _ => rfl,
   fun _ _ _ _ _ => rfl,
   fun _ _ _ _ _ _ _ => rfl,
   fun _ _ _ _ => rfl⟩

/-- Closed instance of Claim C7: a `malloc` of 4 bytes through an
allocator bound to heap 1 leaves heap 2 untouched. -/
theorem C7_operations_frame_witness :
    ((Allocator.mk 1 1).malloc E0 4).2.heaps 2 = E0.heaps 2 :=
  (C7_operations_frame.1 ⟨1, 1⟩ E0 4).2 2 (by decide)

/-- A sample engine holding one allocated block, at address 100, owned by
heap 2. -/
def E2 : Engine :=
  { nextHeap := 3, nextAddr := 101, oom := fun _ => false, junk := 0,
    strAt := fun _ => [],
    heaps := fun k => if k = 2 then ⟨[(100, ⟨1, [0]⟩)], [], 0⟩
      else HeapState.empty }

/-- Claim C7 counterexample: an allocator bound to heap 1 calls `free` on
a pointer owned by heap 2, and heap 2's state changes — `free` forwards
the bare pointer to the engine's heap-agnostic free routine (the Rust
wrapper passes no heap to `mi_free`), so it is not an operation scoped to
the bound heap as the claim states for the whole family. -/
theorem C7_counterexample :
    (Allocator.mk 1 1).heap = 1 ∧
    ((Allocator.mk 1 1).free E2 100).heaps 2 ≠ E2.heaps 2 := by
  refine ⟨rfl, ?_⟩
  decide

/-- Claim C8: for the counted allocation variants, an overflowing
`count * size` (beyond the usize range) yields the null failure sentinel,
exactly as out-of-memory does, and the engine is left unchanged. -/
theorem C8_counted_overflow (a : Allocator) (e : Engine) (count size : Nat)
    (h : 18446744073709551616 ≤ count * size) :
    a.calloc e count size = (0, e) ∧ a.mallocn e count size = (0, e) := by
  constructor
  · show mi_heap_calloc e a.heap count size = (0, e)
    unfold mi_heap_calloc
    rw [if_pos h]
  · show mi_heap_mallocn e a.heap count size = (0, e)
    unfold mi_heap_mallocn
    rw [if_pos h]

/-- Closed instance of Claim C8: `calloc(2^32, 2^32)` — whose byte count
2^64 overflows usize — returns the null sentinel and leaves the engine
unchanged. -/
theorem C8_counted_overflow_witness :
    (Allocator.mk 1 1).calloc E0 4294967296 4294967296 = (0, E0) :=
  (C8_counted_overflow ⟨1, 1⟩ E0 4294967296 4294967296 (by decide)).1

theorem lookupBlock_addBlock (h : HeapState) (addr : Nat) (b : Block) :
    (h.addBlock addr b).lookupBlock addr = some b := by
  unfold HeapState.addBlock HeapState.lookupBlock
  rw [List.find?_cons_of_pos]
  · rfl
  · simp

theorem allocInto_result (e : Engine) (h : Nat) (bs : List Nat) :
    (e.allocInto h bs).1 = 0 ∨
      ((e.allocInto h bs).2.heaps h).lookupBlock (e.allocInto h bs).1 =
        some ⟨bs.length, bs⟩ := by
  unfold Engine.allocInto
  split
  · exact Or.inl rfl
  · right
    simp [Engine.setHeap, lookupBlock_addBlock]

theorem zalloc_zeroed (e : Engine) (h n : Nat) :
    (mi_heap_zalloc e h n).1 = 0 ∨
      ((mi_heap_zalloc e h n).2.heaps h).lookupBlock (mi_heap_zalloc e h n).1 =
        some ⟨n, List.replicate n 0⟩ := by
  have hres := allocInto_result e h (List.replicate n 0)
  rwa [List.length_replicate] at hres

theorem calloc_zeroed (e : Engine) (h count size : Nat) :
    (mi_heap_calloc e h count size).1 = 0 ∨
      ((mi_heap_calloc e h count size).2.heaps h).lookupBlock
          (mi_heap_calloc e h count size).1 =
        some ⟨count * size, List.replicate (count * size) 0⟩ := by
  unfold mi_heap_calloc
  split
  · exact Or.inl rfl
  · exact zalloc_zeroed e h (count * size)

/-- Claim C9: every member of the zeroing allocation family either fails
with the null sentinel or produces a block of exactly the requested
number of bytes, all zero, registered in the bound heap at the returned
address. -/
theorem C9_zalloc_family_zeroed (a : Allocator) (e : Engine)
    (n count size al off : Nat) :
    ((a.zalloc e n).1 = 0 ∨
      ((a.zalloc e n).2.heaps a.heap).lookupBlock (a.zalloc e n).1 =
        some ⟨n, List.replicate n 0⟩) ∧
    ((a.calloc e count size).1 = 0 ∨
      ((a.calloc e count size).2.heaps a.heap).lookupBlock
          (a.calloc e count size).1 =
        some ⟨count * size, List.replicate (count * size) 0⟩) ∧
    ((a.zalloc_aligned e n al).1 = 0 ∨
      ((a.zalloc_aligned e n al).2.heaps a.heap).lookupBlock
          (a.zalloc_aligned e n al).1 =
        some ⟨n, List.replicate n 0⟩) ∧
    ((a.zalloc_aligned_at e n al off).1 = 0 ∨
      ((a.zalloc_aligned_at e n al off).2.heaps a.heap).lookupBlock
          (a.zalloc_aligned_at e n al off).1 =
        some ⟨n, List.replicate n 0⟩) ∧
    ((a.calloc_aligned e count size al).1 = 0 ∨
      ((a.calloc_aligned e count size al).2.heaps a.heap).lookupBlock
          (a.calloc_aligned e count size al).1 =
        some ⟨count * size, List.replicate (count * size) 0⟩) ∧
    ((a.calloc_aligned_at e count size al off).1 = 0 ∨
      ((a.calloc_aligned_at e count size al off).2.heaps a.heap).lookupBlock
          (a.calloc_aligned_at e count size al off).1 =
        some ⟨count * size, List.replicate (count * size) 0⟩) :=
  ⟨zalloc_zeroed e a.heap n,
   calloc_zeroed e a.heap count size,
   zalloc_zeroed e a.heap n,
   zalloc_zeroed e a.heap n,
   calloc_zeroed e a.heap count size,
   calloc_zeroed e a.heap count size⟩

theorem visitBlockList_eq_all (f : VisitFun) (a : Area) (arg : Nat)
    (l : List Nat) :
    visitBlockList f a arg l =
      l.all fun b => f a (some b) a.blockSize arg := by
  induction l with
  | nil => rfl
  | cons b rest ih =>
    cases hfa : f a (some b) a.blockSize arg <;> simp [visitBlockList, hfa, ih]

theorem visitAreaList_eq_all (f : VisitFun) (va : Bool) (arg : Nat)
    (l : List Area) :
    visitAreaList f va arg l =
      l.all fun a => f a none a.blockSize arg &&
        (!va || visitBlockList f a arg a.liveBlocks) := by
  induction l with
  | nil => rfl
  | cons a rest ih =>
    cases hfa : f a none a.blockSize arg
    · simp [visitAreaList, hfa]
    · cases va
      · simp [visitAreaList, hfa, ih]
      · cases hvb : visitBlockList f a arg a.liveBlocks <;>
          simp [visitAreaList, hfa, hvb, ih]

/-- Claim C10: `visit_blocks` returns `true` exactly when every area —
and, when `visit_all_blocks` is set, every live block within each area —
was visited with the visitor answering `true` throughout; it returns
`false` when the visitor aborted the walk early, and `false` when no
visitor was supplied. -/
theorem C10_visit_blocks (a : Allocator) (e : Engine) (va : Bool) (arg : Nat) :
    a.visit_blocks e va none arg = false ∧
    ∀ f : VisitFun,
      (a.visit_blocks e va (some f) arg = true ↔
        ∀ ar ∈ (e.heaps a.heap).areas,
          f ar none ar.blockSize arg = true ∧
          (va = true → ∀ b ∈ ar.liveBlocks,
            f ar (some b) ar.blockSize arg = true)) := by
  refine ⟨rfl, fun f => ?_⟩
  show visitAreaList f va arg (e.heaps a.heap).areas = true ↔ _
  rw [visitAreaList_eq_all, List.all_eq_true]
  apply forall_congr'
  intro ar
  apply imp_congr_right
  intro _
  rw [Bool.and_eq_true]
  apply and_congr_right
  intro _
  cases va
  · simp
  · simp [visitBlockList_eq_all, List.all_eq_true]

end Cesium
